import Mathlib

/-!
Verification of the `u` immediate-mode UI program.

The repository ships `src/main.rs` (window/event-loop glue, the input-event
handler `handle_ui_event`, and the redraw path) and declares `mod ui;`, but the
`ui` module itself (the `Context` with its font atlas, draw list, layout cursor
and widget evaluator) is not present in the sources.  Definitions below that
embed the `ui` module are therefore modelled from the specification and are
marked `Modelled from the spec:` in their doc comments; everything else is a
direct shallow embedding of `src/main.rs`.

Conventions of the embedding: pixel coordinates and glyph advances are `Int`
(the claims under study concern which fields change and counting/summing, not
floating-point rounding); the fixed-size button-flag array is `Fin 4 → Bool`;
byte buffers are `List Nat`.
-/

namespace U

/-- Cursor/pen positions, window pixel space. -/
abbrev Pos := Int × Int

/-- Mouse buttons as delivered by the windowing boundary
(winit `MouseButton`). -/
inductive MButton where
  | left
  | right
  | middle
  | back
  | forward
  | other (id : Nat)
deriving DecidableEq

/-- The windowing events consumed by `main.rs`'s event loop. -/
inductive UIEvent where
  | cursorMoved (x y : Int)
  | mouseInput (button : MButton) (pressed : Bool)
  | resized (w h : Nat)
  | closeRequested
  | redrawRequested
  | aboutToWait
  | otherEvent
deriving DecidableEq

/-- The input snapshot (`ui::Context`'s `input` field): last-known cursor
position and the fixed-size array of button-pressed flags. -/
structure InputState where
  cursor_pos : Pos
  mouse_buttons : Fin 4 → Bool

/-- Write one flag of the button array, leaving the others unchanged. -/
def setButton (f : Fin 4 → Bool) (i : Fin 4) (b : Bool) : Fin 4 → Bool :=
  fun j => if j = i then b else f j

/-- The button-id-to-flag-index mapping of `handle_ui_event`
(src/main.rs:289-294): `Left → 0`, `Middle → 2`, `Right → 3`, anything
else is ignored (`_ => return`). -/
def buttonIndex : MButton → Option (Fin 4)
  | .left => some 0
  | .middle => some 2
  | .right => some 3
  | _ => none

/-- Shallow embedding of `handle_ui_event` (src/main.rs:281-300) acting on
the input snapshot: a cursor-moved event overwrites `cursor_pos`; a
mouse-button event writes the mapped flag; every other event (and every
unmapped button id) leaves the state unchanged. -/
def handle_ui_event (input : InputState) : UIEvent → InputState
  | .cursorMoved x y => { input with cursor_pos := (x, y) }
  | .mouseInput b pressed =>
    match buttonIndex b with
    | some i => { input with mouse_buttons := setButton input.mouse_buttons i pressed }
    | none => input
  | _ => input

/-- Fold a sequence of windowing events through `handle_ui_event`. -/
def runEvents (input : InputState) (es : List UIEvent) : InputState :=
  es.foldl handle_ui_event input

/-- The coordinates of the last cursor-moved event of the sequence, or the
default when the sequence has none. -/
def lastCursorD (d : Pos) : List UIEvent → Pos
  | [] => d
  | .cursorMoved x y :: es => lastCursorD (x, y) es
  | _ :: es => lastCursorD d es

/-- The pressed/released state of the last button event mapping to flag `i`,
or the default when the sequence has none. -/
def lastButtonD (i : Fin 4) (d : Bool) : List UIEvent → Bool
  | [] => d
  | .mouseInput b p :: es =>
    lastButtonD i (if buttonIndex b = some i then p else d) es
  | _ :: es => lastButtonD i d es

/-- Vertex as in the `shared` crate: position, texture coordinate, color.
Coordinates are modelled as integers (see the header note). -/
structure Vertex where
  pos : Pos
  uv : Pos
  color : Int × Int × Int
deriving DecidableEq

/-- The per-frame draw list: an ordered vertex sequence and an ordered
sequence of 32-bit triangle indices (`out.vtx_buf` / `out.idx_buf` in
src/main.rs:217-222). -/
structure DrawList where
  vtx_buf : List Vertex
  idx_buf : List Nat
deriving DecidableEq

/-- A pixel-aligned rectangle in atlas space. -/
structure Rect where
  x : Nat
  y : Nat
  w : Nat
  h : Nat
deriving DecidableEq

/-- Modelled from the spec: a `Glyph` of the missing `ui` module — codepoint,
atlas UV rectangle and advance width ("Glyph: codepoint, atlas UV rectangle,
advance width, bitmap size/bearing"). -/
structure Glyph where
  codepoint : Nat
  uv : Rect
  advance : Int
deriving DecidableEq

/-- Modelled from the spec: one rasterized glyph bitmap as produced by the
font rasterizer of the missing `ui` module (coverage values row by row). -/
structure RasterGlyph where
  width : Nat
  height : Nat
  advance : Int
  bitmap : List Nat
deriving DecidableEq

/-- Modelled from the spec: the font program handed to `add_font`.  Parsing
and rasterization of real font bytes are outside a shallow embedding, so a
font is abstracted to whether its bytes parse (`wellFormed`) together with
the sequence of rasterized printable-range glyphs the rasterizer would
produce, in codepoint order starting at 32. -/
structure FontData where
  wellFormed : Bool
  raster : List RasterGlyph
deriving DecidableEq

/-- Modelled from the spec: `FontError`, raised when font data cannot be
parsed or a glyph cannot be rasterized, or the pixel size is invalid. -/
inductive FontError where
  | parseFailed
  | invalidSize
deriving DecidableEq

/-- Modelled from the spec: shelf-pack the rasterized glyphs into one atlas
row — glyph `k` is placed at x-offset `sum of widths of glyphs before k`,
y-offset 0, and is assigned codepoint `cp + k`. -/
def buildGlyphs (cp x : Nat) : List RasterGlyph → List Glyph
  | [] => []
  | g :: gs =>
    { codepoint := cp, uv := ⟨x, 0, g.width, g.height⟩, advance := g.advance } ::
      buildGlyphs (cp + 1) (x + g.width) gs

/-- Total width of a glyph row: the sum of the glyph bitmap widths. -/
def totalWidth (gs : List RasterGlyph) : Nat :=
  (gs.map (fun g => g.width)).sum

/-- Height of a glyph row: the maximum of the glyph bitmap heights. -/
def maxHeight (gs : List RasterGlyph) : Nat :=
  (gs.map (fun g => g.height)).foldr max 0

/-- Modelled from the spec: the coverage value of atlas pixel `(x, y)` —
sample the bitmap of the glyph whose shelf slot contains `x`, or 0 where no
glyph covers the pixel. -/
def atlasPixel (x y : Nat) : List Glyph → List RasterGlyph → Nat
  | g :: gl, r :: rl =>
    if g.uv.x ≤ x ∧ x < g.uv.x + g.uv.w then
      if y < r.height then r.bitmap.getD (y * r.width + (x - g.uv.x)) 0 else 0
    else atlasPixel x y gl rl
  | _, _ => 0

/-- Modelled from the spec: the `FontAtlas` of the missing `ui` module —
the glyph table, the atlas bitmap dimensions, the single-channel coverage
bitmap, and the line height recorded from the requested pixel size. -/
structure FontAtlas where
  glyphs : List Glyph
  width : Nat
  height : Nat
  bitmap : List Nat
  line_height : Int
deriving DecidableEq

/-- The empty atlas, before any `add_font`. -/
def FontAtlas.empty : FontAtlas :=
  { glyphs := [], width := 0, height := 0, bitmap := [], line_height := 0 }

/-- Modelled from the spec: `add_font(bytes, pixel_size) -> Result<(), FontError>`
of the missing `ui` module — fails on malformed font data or a non-positive
pixel size; otherwise rasterizes the printable codepoint range, packs the
glyph bitmaps into a single atlas row without overlap, and records each
glyph's UV rectangle and advance. -/
def add_font (font : FontData) (pixel_size : Int) : Except FontError FontAtlas :=
  if pixel_size ≤ 0 then .error .invalidSize
  else if ¬font.wellFormed then .error .parseFailed
  else
    let gs := buildGlyphs 32 0 font.raster
    let w := totalWidth font.raster
    let h := maxHeight font.raster
    .ok
      { glyphs := gs
        width := w
        height := h
        bitmap :=
          (List.range h).flatMap fun y =>
            (List.range w).map fun x => atlasPixel x y gs font.raster
        line_height := pixel_size }

/-- Modelled from the spec: `size()` — the atlas pixel dimensions. -/
def FontAtlas.size (a : FontAtlas) : Nat × Nat :=
  (a.width, a.height)

/-- Modelled from the spec: `build_tex()` — produce the RGBA8 upload buffer
by replicating each coverage value into the four channels, rebuilding it on
demand from the atlas state, which it returns unchanged. -/
def build_tex (a : FontAtlas) : List Nat × FontAtlas :=
  (a.bitmap.flatMap fun c => [c, c, c, c], a)

/-- Modelled from the spec: glyph lookup for one character — `none` for
codepoints outside the rasterized range. -/
def glyphFor (a : FontAtlas) (c : Char) : Option Glyph :=
  a.glyphs.find? fun g => g.codepoint = c.toNat

/-- Modelled from the spec: the fallback advance width used for characters
without a glyph (its exact value is unspecified in the spec). -/
def fallback_advance : Int := 6

/-- Modelled from the spec: the fixed foreground text color. -/
def fg_color : Int × Int × Int := (1, 1, 1)

/-- Modelled from the spec: the fixed padding added around a button label
(8 px on each side in the §8 scenario). -/
def button_pad : Int := 8

/-- Modelled from the spec: the `ui::Context` — input snapshot, font atlas,
the frame-scoped draw list and layout cursor, the configurable margin the
cursor is reset to, and the widget-interaction state recording the primary
flag as seen by the previous frame's button evaluation. -/
structure Context where
  input : InputState
  fonts : FontAtlas
  draw_list : DrawList
  cursor : Pos
  margin : Pos
  last_mouse : Bool

/-- Modelled from the spec: `Context::new()` — fresh context with empty
atlas, empty draw list, cursor at the margin and no prior interaction. -/
def Context.new : Context :=
  { input := { cursor_pos := (0, 0), mouse_buttons := fun _ => false }
    fonts := FontAtlas.empty
    draw_list := { vtx_buf := [], idx_buf := [] }
    cursor := (0, 0)
    margin := (0, 0)
    last_mouse := false }

/-- Append one quad — 4 vertices and 6 indices forming two triangles over
the fresh vertices — to the draw list. -/
def appendQuad (dl : DrawList) (p : Pos) (size : Pos) (uv : Rect)
    (color : Int × Int × Int) : DrawList :=
  let b := dl.vtx_buf.length
  { vtx_buf := dl.vtx_buf ++
      [ { pos := p, uv := (uv.x, uv.y), color := color }
      , { pos := (p.1 + size.1, p.2), uv := (uv.x + uv.w, uv.y), color := color }
      , { pos := (p.1 + size.1, p.2 + size.2), uv := (uv.x + uv.w, uv.y + uv.h), color := color }
      , { pos := (p.1, p.2 + size.2), uv := (uv.x, uv.y + uv.h), color := color } ]
    idx_buf := dl.idx_buf ++ [b, b + 1, b + 2, b, b + 2, b + 3] }

/-- Modelled from the spec: one character of `text` — look up the glyph,
emit one quad at the layout cursor and advance by the glyph's advance
width, or skip the quad and advance by the fallback width when the
character has no glyph. -/
def textChar (ctx : Context) (c : Char) : Context :=
  match glyphFor ctx.fonts c with
  | some g =>
    { ctx with
      draw_list := appendQuad ctx.draw_list ctx.cursor (g.uv.w, g.uv.h) g.uv fg_color
      cursor := (ctx.cursor.1 + g.advance, ctx.cursor.2) }
  | none => { ctx with cursor := (ctx.cursor.1 + fallback_advance, ctx.cursor.2) }

/-- Modelled from the spec: `text(label)` over an explicit character list. -/
def textList (ctx : Context) (s : List Char) : Context :=
  s.foldl textChar ctx

/-- Modelled from the spec: `text(label)`. -/
def text (ctx : Context) (s : String) : Context :=
  textList ctx s.toList

/-- The measured text extent: the sum of the glyph advances, with the
fallback advance for characters without a glyph. -/
def advanceSum (a : FontAtlas) : List Char → Int
  | [] => 0
  | c :: cs =>
    (match glyphFor a c with
     | some g => g.advance
     | none => fallback_advance) + advanceSum a cs

/-- The number of characters of the string that have a glyph. -/
def glyphCount (a : FontAtlas) : List Char → Nat
  | [] => 0
  | c :: cs => (if (glyphFor a c).isSome then 1 else 0) + glyphCount a cs

/-- Point-in-rectangle hit test against a rectangle anchored at `p` with
extent `(w, h)`, half-open on the far edges. -/
def inRect (q p : Pos) (w h : Int) : Bool :=
  p.1 ≤ q.1 && q.1 < p.1 + w && p.2 ≤ q.2 && q.2 < p.2 + h

/-- The bounding-rectangle extent of a button: measured label extent plus
the fixed padding on each side, width-wise, and one line height plus the
padding, height-wise. -/
def buttonSize (a : FontAtlas) (s : List Char) : Int × Int :=
  (advanceSum a s + 2 * button_pad, a.line_height + 2 * button_pad)

/-- Modelled from the spec: the button background colors for the idle,
hovered, and pressed-and-hovered visual states. -/
def buttonColor (hovered down : Bool) : Int × Int × Int :=
  if hovered && down then (3, 3, 3) else if hovered then (2, 2, 2) else (1, 1, 1)

/-- Modelled from the spec: `button(label) -> bool` of the missing `ui`
module — hit-test the cursor against the padded label rectangle anchored at
the layout cursor; always draw the state-colored background quad and then
the label on top; report a click exactly on the false-to-true transition of
the primary flag relative to the previous frame while hovered; advance the
cursor past the button; record the primary flag for the next frame. -/
def button (ctx : Context) (s : List Char) : Context × Bool :=
  let sz := buttonSize ctx.fonts s
  let hovered := inRect ctx.input.cursor_pos ctx.cursor sz.1 sz.2
  let down := ctx.input.mouse_buttons 0
  let clicked := down && !ctx.last_mouse && hovered
  let anchor := ctx.cursor
  let ctx :=
    { ctx with
      draw_list := appendQuad ctx.draw_list anchor sz ⟨0, 0, 0, 0⟩ (buttonColor hovered down)
      cursor := (anchor.1 + button_pad, anchor.2 + button_pad) }
  let ctx := textList ctx s
  let ctx :=
    { ctx with
      cursor := (anchor.1 + sz.1, anchor.2)
      last_mouse := down }
  (ctx, clicked)

/-- Modelled from the spec: `begin_frame()` — reset the draw list to empty
and the layout cursor to the margin origin. -/
def begin_frame (ctx : Context) : Context :=
  { ctx with draw_list := { vtx_buf := [], idx_buf := [] }, cursor := ctx.margin }

/-- Modelled from the spec: `end_frame()` — yield the accumulated draw list
by value. -/
def end_frame (ctx : Context) : Context × DrawList :=
  (ctx, ctx.draw_list)

/-- The frame body run on a redraw (src/main.rs:209-214): `begin_frame`,
`text("hello floppa")`, `button("button")`, `end_frame`; yields the updated
context, the returned draw list and the button result. -/
def runFrame (ctx : Context) : Context × DrawList × Bool :=
  let ctx1 := begin_frame ctx
  let ctx2 := text ctx1 "hello floppa"
  let bp := button ctx2 (String.toList "button")
  ((end_frame bp.1).1, (end_frame bp.1).2, bp.2)

/-- Errors `get_current_texture` can fail with (wgpu `SurfaceError`). -/
inductive SurfaceError where
  | timeout
  | outdated
  | lost
  | outOfMemory
deriving DecidableEq

/-- Outcome of the redraw arm of the event loop: either a frame was rendered
and presented, or the process aborted. -/
inductive RedrawOutcome where
  | presented (out : DrawList)
  | aborted (e : SurfaceError)
deriving DecidableEq

/-- Shallow embedding of the `RedrawRequested` arm (src/main.rs:201-256):
`surface.get_current_texture().unwrap()` aborts the process on any surface
error; on success the frame body runs and its draw list is presented. -/
def redraw_requested (ctx : Context) (acquire : Except SurfaceError Unit) :
    Context × RedrawOutcome :=
  match acquire with
  | .error e => (ctx, .aborted e)
  | .ok _ => ((runFrame ctx).1, .presented (runFrame ctx).2.1)

/-- One iteration of the event-loop closure (src/main.rs:195-261):
`handle_ui_event` is applied to the incoming event first, then the event is
matched; a redraw event runs the frame body.  The second component records,
for a redraw event, the input snapshot in effect when `begin_frame` was
invoked. -/
def loop_iteration (ctx : Context) (e : UIEvent) : Context × Option InputState :=
  let ctx1 := { ctx with input := handle_ui_event ctx.input e }
  match e with
  | .redrawRequested => ((runFrame ctx1).1, some ctx1.input)
  | _ => (ctx1, none)

/-- Run the event loop over a finite event sequence, collecting for each
event the `begin_frame` input snapshot when that event was a redraw. -/
def runLoop (ctx : Context) : List UIEvent → Context × List (Option InputState)
  | [] => (ctx, [])
  | e :: es =>
    ((runLoop (loop_iteration ctx e).1 es).1,
      (loop_iteration ctx e).2 :: (runLoop (loop_iteration ctx e).1 es).2)

/-- One displayed frame of a pure frame sequence: load the frame's input
snapshot, then run `begin_frame`; `button(label)`; `end_frame`, yielding
the button's result. -/
def frameStep (s : List Char) (ctx : Context) (input : InputState) :
    Context × Bool :=
  let ctx1 := begin_frame { ctx with input := input }
  ((end_frame (button ctx1 s).1).1, (button ctx1 s).2)

/-- Run a frame sequence, one `button(label)` call per frame, collecting the
per-frame results. -/
def runFrames (s : List Char) (ctx : Context) :
    List InputState → Context × List Bool
  | [] => (ctx, [])
  | input :: inputs =>
    ((runFrames s (frameStep s ctx input).1 inputs).1,
      (frameStep s ctx input).2 :: (runFrames s (frameStep s ctx input).1 inputs).2)

/-- The claim's click semantics, written from the spec's words: a frame
reports `true` exactly when the primary flag is `true`, was `false` on the
previous frame (`prev` for the first frame), and the cursor lies inside the
button rectangle anchored at `p` with extent `(w, h)`. -/
def clickSpecList (p : Pos) (w h : Int) (prev : Bool) :
    List InputState → List Bool
  | [] => []
  | input :: inputs =>
    (input.mouse_buttons 0 && !prev && inRect input.cursor_pos p w h) ::
      clickSpecList p w h (input.mouse_buttons 0) inputs

/-! ## Helper lemmas -/

theorem runEvents_nil (input : InputState) : runEvents input [] = input := rfl

theorem runEvents_cons (input : InputState) (e : UIEvent) (es : List UIEvent) :
    runEvents input (e :: es) = runEvents (handle_ui_event input e) es := rfl

theorem handle_cursor_pos (input : InputState) (e : UIEvent) :
    (handle_ui_event input e).cursor_pos =
      match e with
      | .cursorMoved x y => (x, y)
      | _ => input.cursor_pos := by
  cases e with
  | mouseInput b p => cases b <;> rfl
  | _ => rfl

theorem handle_mouse_buttons (input : InputState) (e : UIEvent) (i : Fin 4) :
    (handle_ui_event input e).mouse_buttons i =
      match e with
      | .mouseInput b p => if buttonIndex b = some i then p else input.mouse_buttons i
      | _ => input.mouse_buttons i := by
  cases e with
  | mouseInput b p =>
    cases b <;>
      simp only [handle_ui_event, buttonIndex, setButton, Option.some.injEq] <;>
      rcases eq_or_ne i 0 with h | h <;> rcases eq_or_ne i 2 with h2 | h2 <;>
      rcases eq_or_ne i 3 with h3 | h3 <;>
      simp_all [eq_comm]
  | _ => rfl

/-! ## Claims about the input-event handler (src/main.rs:281-300) -/

/-- C3: `handle_ui_event` maps the primary (left) button to flag index 0,
the middle button to index 2 and the secondary (right) button to index 3;
flag index 1 is never written by any event; and an event for any other
button id leaves the input state entirely unchanged. -/
theorem button_index_mapping (input : InputState) (p : Bool) (id : Nat) (e : UIEvent) :
    handle_ui_event input (.mouseInput .left p) =
      { input with mouse_buttons := setButton input.mouse_buttons 0 p } ∧
    handle_ui_event input (.mouseInput .middle p) =
      { input with mouse_buttons := setButton input.mouse_buttons 2 p } ∧
    handle_ui_event input (.mouseInput .right p) =
      { input with mouse_buttons := setButton input.mouse_buttons 3 p } ∧
    handle_ui_event input (.mouseInput .back p) = input ∧
    handle_ui_event input (.mouseInput .forward p) = input ∧
    handle_ui_event input (.mouseInput (.other id) p) = input ∧
    (handle_ui_event input e).mouse_buttons 1 = input.mouse_buttons 1 := by
  refine ⟨rfl, rfl, rfl, rfl, rfl, rfl, ?_⟩
  rw [handle_mouse_buttons]
  cases e with
  | mouseInput b p => cases b <;> simp [buttonIndex]
  | _ => rfl

/-- C10: every event modifies at most one component of the input state — a
cursor-moved event overwrites only the cursor position, a left/middle/right
button event writes only the flag at index 0/2/3 respectively, and every
other event (including back/forward/unknown button ids) leaves the whole
state unchanged. -/
theorem handle_ui_event_frame_effect (input : InputState) (x y : Int) (p : Bool)
    (id : Nat) :
    (handle_ui_event input (.cursorMoved x y)).cursor_pos = (x, y) ∧
    (handle_ui_event input (.cursorMoved x y)).mouse_buttons = input.mouse_buttons ∧
    (handle_ui_event input (.mouseInput .left p)).cursor_pos = input.cursor_pos ∧
    (handle_ui_event input (.mouseInput .left p)).mouse_buttons =
      setButton input.mouse_buttons 0 p ∧
    (handle_ui_event input (.mouseInput .middle p)).cursor_pos = input.cursor_pos ∧
    (handle_ui_event input (.mouseInput .middle p)).mouse_buttons =
      setButton input.mouse_buttons 2 p ∧
    (handle_ui_event input (.mouseInput .right p)).cursor_pos = input.cursor_pos ∧
    (handle_ui_event input (.mouseInput .right p)).mouse_buttons =
      setButton input.mouse_buttons 3 p ∧
    (∀ j : Fin 4, j ≠ 0 → setButton input.mouse_buttons 0 p j = input.mouse_buttons j) ∧
    (∀ j : Fin 4, j ≠ 2 → setButton input.mouse_buttons 2 p j = input.mouse_buttons j) ∧
    (∀ j : Fin 4, j ≠ 3 → setButton input.mouse_buttons 3 p j = input.mouse_buttons j) ∧
    handle_ui_event input (.mouseInput .back p) = input ∧
    handle_ui_event input (.mouseInput .forward p) = input ∧
    handle_ui_event input (.mouseInput (.other id) p) = input ∧
    handle_ui_event input (.resized 0 0) = input ∧
    (∀ w h : Nat, handle_ui_event input (.resized w h) = input) ∧
    handle_ui_event input .closeRequested = input ∧
    handle_ui_event input .redrawRequested = input ∧
    handle_ui_event input .aboutToWait = input ∧
    handle_ui_event input .otherEvent = input := by
  refine ⟨rfl, rfl, rfl, rfl, rfl, rfl, rfl, rfl, ?_, ?_, ?_, rfl, rfl, rfl, rfl,
    fun _ _ => rfl, rfl, rfl, rfl, rfl⟩ <;>
    intro j hj <;> simp [setButton, hj]

/-- C4: folding any event sequence through `handle_ui_event` leaves the
cursor at the coordinates of the last cursor-moved event (or the initial
position when there is none) and each flag at the state of the last button
event mapped to it (or its initial value when there is none). -/
theorem input_state_last_writer_wins (input : InputState) (es : List UIEvent) :
    (runEvents input es).cursor_pos = lastCursorD input.cursor_pos es ∧
    ∀ i : Fin 4,
      (runEvents input es).mouse_buttons i = lastButtonD i (input.mouse_buttons i) es := by
  induction es generalizing input with
  | nil => exact ⟨rfl, fun _ => rfl⟩
  | cons e es ih =>
    obtain ⟨hc, hb⟩ := ih (handle_ui_event input e)
    rw [runEvents_cons]
    refine ⟨?_, fun i => ?_⟩
    · rw [hc, handle_cursor_pos]
      cases e <;> rfl
    · rw [hb i, handle_mouse_buttons]
      cases e <;> rfl

/-! ## Claim about the redraw path (src/main.rs:201-205) -/

/-- C5: when acquiring the surface texture fails — with any surface error,
in particular the transient lost/outdated ones — the redraw arm aborts the
process (the `.unwrap()` panic) instead of reconfiguring the surface and
skipping the frame as the specification requires. -/
theorem redraw_aborts_on_surface_error (ctx : Context) (e : SurfaceError) :
    (redraw_requested ctx (.error e)).2 = .aborted e ∧
    (redraw_requested ctx (.error .lost)).2 = .aborted .lost ∧
    (redraw_requested ctx (.error .outdated)).2 = .aborted .outdated :=
  ⟨rfl, rfl, rfl⟩

/-! ## Frame evaluation preserves the input snapshot and the static fields -/

theorem textChar_preserves (ctx : Context) (c : Char) :
    (textChar ctx c).input = ctx.input ∧ (textChar ctx c).fonts = ctx.fonts ∧
    (textChar ctx c).margin = ctx.margin ∧ (textChar ctx c).last_mouse = ctx.last_mouse := by
  unfold textChar
  cases glyphFor ctx.fonts c <;> exact ⟨rfl, rfl, rfl, rfl⟩

theorem textList_preserves (ctx : Context) (s : List Char) :
    (textList ctx s).input = ctx.input ∧ (textList ctx s).fonts = ctx.fonts ∧
    (textList ctx s).margin = ctx.margin ∧
    (textList ctx s).last_mouse = ctx.last_mouse := by
  induction s generalizing ctx with
  | nil => exact ⟨rfl, rfl, rfl, rfl⟩
  | cons c cs ih =>
    obtain ⟨h1, h2, h3, h4⟩ := ih (textChar ctx c)
    obtain ⟨g1, g2, g3, g4⟩ := textChar_preserves ctx c
    exact ⟨h1.trans g1, h2.trans g2, h3.trans g3, h4.trans g4⟩

theorem button_preserves (ctx : Context) (s : List Char) :
    (button ctx s).1.input = ctx.input ∧ (button ctx s).1.fonts = ctx.fonts ∧
    (button ctx s).1.margin = ctx.margin := by
  unfold button
  obtain ⟨h1, h2, h3, _⟩ := textList_preserves
    { ctx with
      draw_list := appendQuad ctx.draw_list ctx.cursor (buttonSize ctx.fonts s)
        ⟨0, 0, 0, 0⟩ (buttonColor (inRect ctx.input.cursor_pos ctx.cursor
          (buttonSize ctx.fonts s).1 (buttonSize ctx.fonts s).2) (ctx.input.mouse_buttons 0))
      cursor := (ctx.cursor.1 + button_pad, ctx.cursor.2 + button_pad) } s
  exact ⟨h1, h2, h3⟩

theorem runFrame_input (ctx : Context) : (runFrame ctx).1.input = ctx.input := by
  unfold runFrame text end_frame
  obtain ⟨ht, htf, _, _⟩ := textList_preserves (begin_frame ctx) "hello floppa".toList
  obtain ⟨hb, _, _⟩ := button_preserves (textList (begin_frame ctx) "hello floppa".toList)
    "button".toList
  exact hb.trans ht

theorem loop_iteration_input (ctx : Context) (e : UIEvent) :
    (loop_iteration ctx e).1.input = handle_ui_event ctx.input e := by
  cases e with
  | redrawRequested =>
    exact runFrame_input { ctx with input := handle_ui_event ctx.input .redrawRequested }
  | cursorMoved x y => rfl
  | mouseInput b p => rfl
  | resized w h => rfl
  | closeRequested => rfl
  | aboutToWait => rfl
  | otherEvent => rfl

theorem runLoop_cons (ctx : Context) (e : UIEvent) (es : List UIEvent) :
    (runLoop ctx (e :: es)).2 =
      (loop_iteration ctx e).2 :: (runLoop (loop_iteration ctx e).1 es).2 := rfl

/-! ## Claim about the event loop's ordering (src/main.rs:195-214) -/

/-- C6: in every loop iteration the incoming event is folded into the input
state before the event is dispatched, so the input snapshot in effect at
`begin_frame` of a redraw equals the fold of every event delivered up to
and including that redraw event. -/
theorem events_applied_before_begin_frame (ctx : Context)
    (pre rest : List UIEvent) :
    (runLoop ctx (pre ++ .redrawRequested :: rest)).2.get? pre.length =
      some (some (runEvents ctx.input (pre ++ [.redrawRequested]))) := by
  induction pre generalizing ctx with
  | nil =>
    rw [List.nil_append, runLoop_cons, List.length_nil, List.get?_cons_zero]
    rfl
  | cons e pre ih =>
    rw [List.cons_append, runLoop_cons, List.length_cons, List.get?_cons_succ,
      List.cons_append, runEvents_cons, ← loop_iteration_input ctx e]
    exact ih (loop_iteration ctx e).1

/-! ## Claims about the frame/widget evaluator (modelled `ui` module) -/

/-- C9: `begin_frame` immediately followed by `end_frame` yields a draw
list whose vertex and index sequences are both empty, regardless of any
geometry accumulated before. -/
theorem empty_frame_is_empty (ctx : Context) :
    (end_frame (begin_frame ctx)).2.vtx_buf = [] ∧
    (end_frame (begin_frame ctx)).2.idx_buf = [] :=
  ⟨rfl, rfl⟩

theorem textList_spec (ctx : Context) (s : List Char) :
    (textList ctx s).cursor.1 = ctx.cursor.1 + advanceSum ctx.fonts s ∧
    (textList ctx s).cursor.2 = ctx.cursor.2 ∧
    (textList ctx s).draw_list.vtx_buf.length =
      ctx.draw_list.vtx_buf.length + 4 * glyphCount ctx.fonts s ∧
    (textList ctx s).draw_list.idx_buf.length =
      ctx.draw_list.idx_buf.length + 6 * glyphCount ctx.fonts s := by
  induction s generalizing ctx with
  | nil => refine ⟨?_, rfl, rfl, rfl⟩; simp [textList, advanceSum]
  | cons c cs ih =>
    obtain ⟨h1, h2, h3, h4⟩ := ih (textChar ctx c)
    obtain ⟨_, hf, _, _⟩ := textChar_preserves ctx c
    have key : textList ctx (c :: cs) = textList (textChar ctx c) cs := rfl
    rw [key, h1, h2, h3, h4, hf]
    cases hg : glyphFor ctx.fonts c with
    | none =>
      refine ⟨?_, ?_, ?_, ?_⟩ <;>
        (simp [textChar, hg, advanceSum, glyphCount]; try ring)
    | some g =>
      refine ⟨?_, ?_, ?_, ?_⟩ <;>
        (simp [textChar, hg, appendQuad, advanceSum, glyphCount]; try ring)

/-- C2: `text(S)` advances the layout cursor horizontally by exactly the
sum of the glyph advances of S's characters (fallback advance for
characters without a glyph), leaves the vertical cursor unchanged, and
appends exactly 4 vertices and 6 indices per character that has a glyph
and none per character without one. -/
theorem text_advance_and_geometry (ctx : Context) (s : String) :
    (text ctx s).cursor.1 = ctx.cursor.1 + advanceSum ctx.fonts s.toList ∧
    (text ctx s).cursor.2 = ctx.cursor.2 ∧
    (text ctx s).draw_list.vtx_buf.length =
      ctx.draw_list.vtx_buf.length + 4 * glyphCount ctx.fonts s.toList ∧
    (text ctx s).draw_list.idx_buf.length =
      ctx.draw_list.idx_buf.length + 6 * glyphCount ctx.fonts s.toList :=
  textList_spec ctx s.toList

theorem button_fields (ctx : Context) (s : List Char) :
    (button ctx s).1.fonts = ctx.fonts ∧
    (button ctx s).1.margin = ctx.margin ∧
    (button ctx s).1.last_mouse = ctx.input.mouse_buttons 0 ∧
    (button ctx s).2 =
      (ctx.input.mouse_buttons 0 && !ctx.last_mouse &&
        inRect ctx.input.cursor_pos ctx.cursor
          (buttonSize ctx.fonts s).1 (buttonSize ctx.fonts s).2) := by
  refine ⟨?_, ?_, rfl, rfl⟩
  · exact (textList_preserves _ s).2.1
  · exact (textList_preserves _ s).2.2.1

theorem frameStep_fields (s : List Char) (ctx : Context) (input : InputState) :
    (frameStep s ctx input).1.fonts = ctx.fonts ∧
    (frameStep s ctx input).1.margin = ctx.margin ∧
    (frameStep s ctx input).1.last_mouse = input.mouse_buttons 0 ∧
    (frameStep s ctx input).2 =
      (input.mouse_buttons 0 && !ctx.last_mouse &&
        inRect input.cursor_pos ctx.margin
          (buttonSize ctx.fonts s).1 (buttonSize ctx.fonts s).2) :=
  button_fields (begin_frame { ctx with input := input }) s

/-- C1: over any frame sequence, the per-frame results of `button(label)`
coincide with the edge-triggered click specification — `true` exactly on a
frame where the primary flag is set, was clear on the previous frame, and
the cursor lies inside the button rectangle; in particular the result is
`false` on every later frame on which the flag stays set. -/
theorem button_edge_trigger (s : List Char) (ctx : Context)
    (inputs : List InputState) :
    (runFrames s ctx inputs).2 =
      clickSpecList ctx.margin (buttonSize ctx.fonts s).1
        (buttonSize ctx.fonts s).2 ctx.last_mouse inputs := by
  induction inputs generalizing ctx with
  | nil => rfl
  | cons input inputs ih =>
    have hrf : (runFrames s ctx (input :: inputs)).2 =
        (frameStep s ctx input).2 ::
          (runFrames s (frameStep s ctx input).1 inputs).2 := rfl
    obtain ⟨hf, hm, hl, hres⟩ := frameStep_fields s ctx input
    rw [hrf, hres, ih (frameStep s ctx input).1, hf, hm, hl]
    rfl

/-! ## Atlas packing -/

/-- The rectangle lies fully within the pixel grid `[0, w) × [0, h)`. -/
def Rect.inBounds (r : Rect) (w h : Nat) : Prop :=
  r.x + r.w ≤ w ∧ r.y + r.h ≤ h

/-- The two rectangles share no pixel: they are separated along one axis. -/
def Rect.disjoint (r1 r2 : Rect) : Prop :=
  r1.x + r1.w ≤ r2.x ∨ r2.x + r2.w ≤ r1.x ∨ r1.y + r1.h ≤ r2.y ∨ r2.y + r2.h ≤ r1.y

instance (r : Rect) (w h : Nat) : Decidable (r.inBounds w h) :=
  inferInstanceAs (Decidable (_ ∧ _))

instance (r1 r2 : Rect) : Decidable (r1.disjoint r2) :=
  inferInstanceAs (Decidable (_ ∨ _))

theorem totalWidth_cons (r : RasterGlyph) (gs : List RasterGlyph) :
    totalWidth (r :: gs) = r.width + totalWidth gs := by
  simp [totalWidth]

theorem maxHeight_cons (r : RasterGlyph) (gs : List RasterGlyph) :
    maxHeight (r :: gs) = max r.height (maxHeight gs) := rfl

theorem buildGlyphs_bounds (gs : List RasterGlyph) : ∀ (cp x : Nat),
    ∀ g ∈ buildGlyphs cp x gs,
      x ≤ g.uv.x ∧ g.uv.x + g.uv.w ≤ x + totalWidth gs ∧ g.uv.y = 0 ∧
        g.uv.h ≤ maxHeight gs := by
  induction gs with
  | nil =>
    intro cp x g hg
    simp [buildGlyphs] at hg
  | cons r gs ih =>
    intro cp x g hg
    rw [buildGlyphs] at hg
    rcases List.mem_cons.mp hg with h | h
    · subst h
      dsimp only
      refine ⟨le_refl x, ?_, rfl, ?_⟩
      · rw [totalWidth_cons]; omega
      · rw [maxHeight_cons]; exact le_max_left _ _
    · obtain ⟨h1, h2, h3, h4⟩ := ih (cp + 1) (x + r.width) g h
      refine ⟨by omega, ?_, h3, ?_⟩
      · rw [totalWidth_cons]; omega
      · rw [maxHeight_cons]; exact le_trans h4 (le_max_right _ _)

theorem buildGlyphs_sorted (gs : List RasterGlyph) : ∀ (cp x : Nat),
    (buildGlyphs cp x gs).Pairwise fun g1 g2 => g1.uv.x + g1.uv.w ≤ g2.uv.x := by
  induction gs with
  | nil => intro cp x; exact List.Pairwise.nil
  | cons r gs ih =>
    intro cp x
    rw [buildGlyphs]
    refine List.Pairwise.cons (fun g hg => ?_) (ih (cp + 1) (x + r.width))
    exact (buildGlyphs_bounds gs (cp + 1) (x + r.width) g hg).1

/-- C7: after a successful `add_font`, every glyph's UV rectangle lies
fully within the atlas bounds `[0, width) × [0, height)` and the rectangles
of any two distinct glyphs do not overlap. -/
theorem atlas_packing (font : FontData) (pixel_size : Int) (a : FontAtlas)
    (h : add_font font pixel_size = .ok a) :
    (∀ g ∈ a.glyphs, g.uv.inBounds a.width a.height) ∧
    a.glyphs.Pairwise fun g1 g2 => g1.uv.disjoint g2.uv := by
  unfold add_font at h
  split_ifs at h
  simp only [Except.ok.injEq] at h
  subst h
  constructor
  · intro g hg
    obtain ⟨_, h2, h3, h4⟩ := buildGlyphs_bounds font.raster 32 0 g hg
    exact ⟨by simpa using h2, by rw [h3]; simpa using h4⟩
  · exact (buildGlyphs_sorted font.raster 32 0).imp fun h => Or.inl h

/-- A tiny concrete font: two rasterized glyphs, 1×1 and 2×1. -/
def fd0 : FontData :=
  { wellFormed := true
    raster := [⟨1, 1, 2, [7]⟩, ⟨2, 1, 3, [9, 8]⟩] }

/-- The atlas obtained by loading `fd0` at pixel size 18. -/
def atlas0 : FontAtlas :=
  (add_font fd0 18).toOption.getD FontAtlas.empty

/-- Witness for C7: `add_font fd0 18` succeeds and the packed atlas
satisfies both packing properties. -/
theorem atlas_packing_witness :
    add_font fd0 18 = .ok atlas0 ∧
    ((∀ g ∈ atlas0.glyphs, g.uv.inBounds atlas0.width atlas0.height) ∧
      atlas0.glyphs.Pairwise fun g1 g2 => g1.uv.disjoint g2.uv) :=
  ⟨rfl, atlas_packing fd0 18 atlas0 rfl⟩

/-- C8: `build_tex` is a deterministic, state-preserving function of the
atlas — it hands back the atlas unchanged, and calling it twice in
sequence with no intervening `add_font` yields byte-identical buffers. -/
theorem build_tex_deterministic (font : FontData) (pixel_size : Int)
    (a : FontAtlas) (_h : add_font font pixel_size = .ok a) :
    (build_tex a).2 = a ∧
    (build_tex ((build_tex a).2)).1 = (build_tex a).1 :=
  ⟨rfl, rfl⟩

/-- Witness for C8: the round trip on the concrete atlas `atlas0`. -/
theorem build_tex_deterministic_witness :
    add_font fd0 18 = .ok atlas0 ∧
    ((build_tex atlas0).2 = atlas0 ∧
      (build_tex ((build_tex atlas0).2)).1 = (build_tex atlas0).1) :=
  ⟨rfl, build_tex_deterministic fd0 18 atlas0 rfl⟩

end U
